import Mathlib

/-!
Verification of the CSV ingestion-plan reconciliation performed by
`read_csv` and `read_csv_batched` in `py-polars/polars/io/csv/functions.py`.

The reconciliation runs before any row is parsed: it validates the selected
column names on a headerless source, merges a positional or keyed dtype
override with the resolved projection, and rewrites keyed overrides from
final (renamed) column names back to original column identity.  The Lean
definitions below are a shallow embedding of that Python code: Python lists
become Lean lists, Python dicts become association lists built by repeated
insertion (`pyDict`), Python truthiness of a list argument is the test
against the empty list (with `none` and the empty list identified, exactly
as Python `if xs:` does), and a raised `ValueError` becomes `Except.error`
carrying the message string.
-/

namespace PolarsCsv

/-- Declared column types.  The source manipulates `PolarsDataType` values
opaquely except for the placeholder `Utf8`; a small concrete inductive with
`Utf8` distinguished is enough to model every code path. -/
inductive Dtype where
  | Utf8
  | Int64
  | Float64
  | Boolean
  deriving DecidableEq, Repr, Inhabited

/-- The `dtypes` argument of `read_csv`: either a positional sequence of
types or a mapping from column-name strings to types (a Python dict,
modelled as an association list in insertion order). -/
inductive DtypesArg where
  | list : List Dtype → DtypesArg
  | dict : List (String × Dtype) → DtypesArg
  deriving DecidableEq, Repr

/-- The column specification handed to the native parser
(`columns if columns else projection`): physical indices or original names. -/
inductive ColumnsArg where
  | byIndex : List Nat → ColumnsArg
  | byName : List String → ColumnsArg
  deriving DecidableEq, Repr

/-- The reconciled plan handed to the native parser: the resolved column
selection and the reconciled dtype specification. -/
structure IngestionPlan where
  columns : Option ColumnsArg
  dtypes : Option DtypesArg
  deriving DecidableEq, Repr

/-- Python str.startswith, modelled on the character level (Python strings
are character sequences; the byte-position based test of the Lean core
agrees but does not reduce in the kernel). -/
def startswith (s pre : String) : Bool := pre.toList.isPrefixOf s.toList

/-- Python dict insertion `d[k] = v`: update the value in place when the key
is present, append the pair otherwise. -/
def pyInsert {α : Type} (d : List (String × α)) (k : String) (v : α) :
    List (String × α) :=
  if d.any (fun p => p.1 == k) then
    d.map (fun p => if p.1 == k then (p.1, v) else p)
  else d ++ [(k, v)]

/-- Python `dict(pairs)`: repeated insertion starting from the empty dict.
On duplicate keys the last value wins and the key keeps its first position,
exactly as in Python. -/
def pyDict {α : Type} (ps : List (String × α)) : List (String × α) :=
  ps.foldl (fun d p => pyInsert d p.1 p.2) []

/-- Python `d[k]` and `k in d` combined: the value at the first matching key,
when present. -/
def pyLookup {α : Type} (d : List (String × α)) (k : String) : Option α :=
  (d.find? (fun p => p.1 == k)).map Prod.snd

/-- Python `d.get(k, dflt)`. -/
def pyGet {α : Type} (d : List (String × α)) (k : String) (dflt : α) : α :=
  (pyLookup d k).getD dflt

/-- Python `max` over a list of natural numbers (every caller passes a
nonempty list, on which `foldl Nat.max 0` agrees with Python `max`). -/
def pyMax (l : List Nat) : Nat := l.foldl Nat.max 0

/-- The overwrite loop of `read_csv` (lines 281-283): for each
`(idx, column_idx)` in `enumerate(projection)`, when `idx < len(dtypes)`,
set `acc[column_idx] = dtypes[idx]`.  The first argument of the recursion is
the running `idx` of `enumerate`. -/
def applyProjDtypes (dtypes : List Dtype) : Nat → List Nat → List Dtype → List Dtype
  | _, [], acc => acc
  | idx, columnIdx :: rest, acc =>
    applyProjDtypes dtypes (idx + 1) rest
      (match dtypes[idx]? with
       | some t => acc.set columnIdx t
       | none => acc)

/-- Lines 271-285 of `read_csv`: a positional dtype override combined with a
`ByIndex` projection is expanded to a flat per-physical-position list of
length `max(projection) + 1`, default-filled with `Utf8`; a longer override
than the projection is a configuration error. -/
def dtypes_after_projection (ps : List Nat) (dtypes : Option DtypesArg) :
    Except String (Option DtypesArg) :=
  match dtypes with
  | some (DtypesArg.list dt) =>
    if ps ≠ [] ∧ dt ≠ [] then
      if ps.length < dt.length then
        Except.error "more dtypes overrides are specified than there are selected columns"
      else
        Except.ok (some (DtypesArg.list
          (applyProjDtypes dt 0 ps (List.replicate (pyMax ps + 1) Dtype.Utf8))))
    else Except.ok dtypes
  | _ => Except.ok dtypes

/-- Lines 287-296 of `read_csv`: a positional dtype override combined with a
`ByName` selection becomes the keyed dict `dict(zip(columns, dtypes))`; a
longer override than the selection is a configuration error. -/
def dtypes_after_columns (cs : List String) (dtypes : Option DtypesArg) :
    Except String (Option DtypesArg) :=
  match dtypes with
  | some (DtypesArg.list dt) =>
    if cs ≠ [] ∧ dt ≠ [] then
      if cs.length < dt.length then
        Except.error "more dtypes overrides are specified than there are selected columns"
      else
        Except.ok (some (DtypesArg.dict (pyDict (cs.zip dt))))
    else Except.ok dtypes
  | _ => Except.ok dtypes

/-- Lines 298-357 of `read_csv`: when a rename list `new_columns` and a keyed
dtype override are both present, derive the original identities
`current_columns` of the first `len(new_columns)` output positions (three
cases: explicit name selection, headerless with or without a projection) and
rewrite the dtype keys from final names to those identities; when a header
is present and no columns are selected, original names are unknown and the
prefix heuristic may instead turn the dict into a positional list. -/
def dtypes_after_rename (has_header : Bool) (ps : List Nat) (cs ncs : List String)
    (dtypes : Option DtypesArg) : Except String (Option DtypesArg) :=
  match dtypes with
  | some (DtypesArg.dict d) =>
    if ncs ≠ [] ∧ d ≠ [] then
      let step : Except String (List String × DtypesArg) :=
        if cs ≠ [] then
          if cs.length < ncs.length then
            Except.error "more new column names are specified than there are selected columns"
          else
            Except.ok (cs.take ncs.length, DtypesArg.dict d)
        else if has_header = false then
          if ps ≠ [] then
            if cs ≠ [] ∧ cs.length < ncs.length then
              Except.error "more new column names are specified than there are selected columns"
            else
              Except.ok (ps.map (fun i => "column_" ++ toString (i + 1)), DtypesArg.dict d)
          else
            Except.ok ((List.range' 1 ncs.length).map (fun i => "column_" ++ toString i),
              DtypesArg.dict d)
        else
          if d.length ≤ ncs.length then
            let dtype_list := (ncs.take d.length).filterMap (fun n => pyLookup d n)
            if dtype_list.length = d.length then
              Except.ok ([], DtypesArg.list dtype_list)
            else Except.ok ([], DtypesArg.dict d)
          else Except.ok ([], DtypesArg.dict d)
      match step with
      | Except.error e => Except.error e
      | Except.ok (current_columns, dt) =>
        match dt with
        | DtypesArg.dict d2 =>
          if current_columns ≠ [] then
            Except.ok (some (DtypesArg.dict (pyDict (d2.map (fun p =>
              (pyGet (pyDict (ncs.zip current_columns)) p.1 p.1, p.2))))))
          else Except.ok (some dt)
        | DtypesArg.list l => Except.ok (some (DtypesArg.list l))
    else Except.ok dtypes
  | _ => Except.ok dtypes

/-- The reconciliation prefix of `read_csv` (lines 192-357 of
`py-polars/polars/io/csv/functions.py`, the non-pyarrow path): the
headerless column-name validation, the three dtype reconciliation stages in
source order, and the plan handed to the native parser
(`columns if columns else projection` together with the final dtypes). -/
def read_csv (has_header : Bool) (projection : Option (List Nat))
    (columns : Option (List String)) (new_columns : Option (List String))
    (dtypes : Option DtypesArg) : Except String IngestionPlan :=
  let ps := projection.getD []
  let cs := columns.getD []
  let ncs := new_columns.getD []
  if cs ≠ [] ∧ has_header = false ∧ (cs.all fun c => startswith c "column_") = false then
    Except.error "specified column names do not start with 'column_', but autogenerated header names were requested"
  else
    match dtypes_after_projection ps dtypes with
    | Except.error e => Except.error e
    | Except.ok dt1 =>
      match dtypes_after_columns cs dt1 with
      | Except.error e => Except.error e
      | Except.ok dt2 =>
        match dtypes_after_rename has_header ps cs ncs dt2 with
        | Except.error e => Except.error e
        | Except.ok dt3 =>
          Except.ok
            { columns := if cs ≠ [] then some (ColumnsArg.byName cs)
                         else projection.map ColumnsArg.byIndex
              dtypes := dt3 }

/-- Lines 581-595 of `read_csv_batched`, transcribed independently of
`read_csv`: a positional dtype override combined with a `ByIndex` projection
is expanded to a flat per-physical-position list of length
`max(projection) + 1`, default-filled with `Utf8`. -/
def batched_dtypes_after_projection (ps : List Nat) (dtypes : Option DtypesArg) :
    Except String (Option DtypesArg) :=
  match dtypes with
  | some (DtypesArg.list dt) =>
    if ps ≠ [] ∧ dt ≠ [] then
      if ps.length < dt.length then
        Except.error "more dtypes overrides are specified than there are selected columns"
      else
        Except.ok (some (DtypesArg.list
          (applyProjDtypes dt 0 ps (List.replicate (pyMax ps + 1) Dtype.Utf8))))
    else Except.ok dtypes
  | _ => Except.ok dtypes

/-- Lines 597-606 of `read_csv_batched`: a positional dtype override combined
with a `ByName` selection becomes `dict(zip(columns, dtypes))`. -/
def batched_dtypes_after_columns (cs : List String) (dtypes : Option DtypesArg) :
    Except String (Option DtypesArg) :=
  match dtypes with
  | some (DtypesArg.list dt) =>
    if cs ≠ [] ∧ dt ≠ [] then
      if cs.length < dt.length then
        Except.error "more dtypes overrides are specified than there are selected columns"
      else
        Except.ok (some (DtypesArg.dict (pyDict (cs.zip dt))))
    else Except.ok dtypes
  | _ => Except.ok dtypes

/-- Lines 608-665 of `read_csv_batched`: the rename translation of a keyed
dtype override, transcribed independently of `read_csv`. -/
def batched_dtypes_after_rename (has_header : Bool) (ps : List Nat) (cs ncs : List String)
    (dtypes : Option DtypesArg) : Except String (Option DtypesArg) :=
  match dtypes with
  | some (DtypesArg.dict d) =>
    if ncs ≠ [] ∧ d ≠ [] then
      let step : Except String (List String × DtypesArg) :=
        if cs ≠ [] then
          if cs.length < ncs.length then
            Except.error "more new column names are specified than there are selected columns"
          else
            Except.ok (cs.take ncs.length, DtypesArg.dict d)
        else if has_header = false then
          if ps ≠ [] then
            if cs ≠ [] ∧ cs.length < ncs.length then
              Except.error "more new column names are specified than there are selected columns"
            else
              Except.ok (ps.map (fun i => "column_" ++ toString (i + 1)), DtypesArg.dict d)
          else
            Except.ok ((List.range' 1 ncs.length).map (fun i => "column_" ++ toString i),
              DtypesArg.dict d)
        else
          if d.length ≤ ncs.length then
            let dtype_list := (ncs.take d.length).filterMap (fun n => pyLookup d n)
            if dtype_list.length = d.length then
              Except.ok ([], DtypesArg.list dtype_list)
            else Except.ok ([], DtypesArg.dict d)
          else Except.ok ([], DtypesArg.dict d)
      match step with
      | Except.error e => Except.error e
      | Except.ok (current_columns, dt) =>
        match dt with
        | DtypesArg.dict d2 =>
          if current_columns ≠ [] then
            Except.ok (some (DtypesArg.dict (pyDict (d2.map (fun p =>
              (pyGet (pyDict (ncs.zip current_columns)) p.1 p.1, p.2))))))
          else Except.ok (some dt)
        | DtypesArg.list l => Except.ok (some (DtypesArg.list l))
    else Except.ok dtypes
  | _ => Except.ok dtypes

/-- The reconciliation prefix of `read_csv_batched` (lines 571-665 of
`py-polars/polars/io/csv/functions.py`), transcribed independently from that
function's body: the headerless column-name validation, the three dtype
reconciliation stages, and the arguments handed to `BatchedCsvReader`
(`columns if columns else projection` together with the final dtypes). -/
def read_csv_batched (has_header : Bool) (projection : Option (List Nat))
    (columns : Option (List String)) (new_columns : Option (List String))
    (dtypes : Option DtypesArg) : Except String IngestionPlan :=
  let ps := projection.getD []
  let cs := columns.getD []
  let ncs := new_columns.getD []
  if cs ≠ [] ∧ has_header = false ∧ (cs.all fun c => startswith c "column_") = false then
    Except.error "specified column names do not start with 'column_', but autogenerated header names were requested"
  else
    match batched_dtypes_after_projection ps dtypes with
    | Except.error e => Except.error e
    | Except.ok dt1 =>
      match batched_dtypes_after_columns cs dt1 with
      | Except.error e => Except.error e
      | Except.ok dt2 =>
        match batched_dtypes_after_rename has_header ps cs ncs dt2 with
        | Except.error e => Except.error e
        | Except.ok dt3 =>
          Except.ok
            { columns := if cs ≠ [] then some (ColumnsArg.byName cs)
                         else projection.map ColumnsArg.byIndex
              dtypes := dt3 }

/-! Helper lemmas about the embedded Python primitives. -/

theorem init_le_foldl_max (l : List Nat) : ∀ b : Nat, b ≤ l.foldl Nat.max b := by
  induction l with
  | nil => intro b; exact Nat.le_refl b
  | cons x xs ih =>
    intro b
    exact Nat.le_trans (Nat.le_max_left b x) (ih (Nat.max b x))

theorem le_pyMax {l : List Nat} {a : Nat} (ha : a ∈ l) : a ≤ pyMax l := by
  unfold pyMax
  suffices h : ∀ b : Nat, a ≤ l.foldl Nat.max b from h 0
  induction l with
  | nil => cases ha
  | cons x xs ih =>
    intro b
    rw [List.foldl_cons]
    rcases List.mem_cons.mp ha with h | h
    · subst h
      exact Nat.le_trans (Nat.le_max_right b a) (init_le_foldl_max xs (Nat.max b a))
    · exact ih h (Nat.max b x)

theorem length_applyProjDtypes (dt : List Dtype) (ps : List Nat) :
    ∀ (idx : Nat) (acc : List Dtype),
    (applyProjDtypes dt idx ps acc).length = acc.length := by
  induction ps with
  | nil => intro idx acc; rfl
  | cons c rest ih =>
    intro idx acc
    rw [applyProjDtypes]
    cases h : dt[idx]? with
    | none => rw [ih]
    | some t => rw [ih, List.length_set]

theorem getElem?_applyProjDtypes_of_not_mem (dt : List Dtype) (ps : List Nat) :
    ∀ (idx : Nat) (acc : List Dtype) (j : Nat), j ∉ ps →
    (applyProjDtypes dt idx ps acc)[j]? = acc[j]? := by
  induction ps with
  | nil => intro idx acc j _; rfl
  | cons c rest ih =>
    intro idx acc j hj
    have hjc : j ≠ c := fun h => hj (h ▸ List.mem_cons_self c rest)
    have hjr : j ∉ rest := fun h => hj (List.mem_cons_of_mem _ h)
    rw [applyProjDtypes]
    cases h : dt[idx]? with
    | none => exact ih _ _ _ hjr
    | some t =>
      rw [ih _ _ _ hjr]
      exact List.getElem?_set_ne (Ne.symm hjc)

theorem getElem?_applyProjDtypes_of_not_written (dt : List Dtype) (ps : List Nat) :
    ∀ (idx : Nat) (acc : List Dtype) (j : Nat),
    (∀ (i ci : Nat), ps[i]? = some ci → idx + i < dt.length → ci ≠ j) →
    (applyProjDtypes dt idx ps acc)[j]? = acc[j]? := by
  induction ps with
  | nil => intro idx acc j _; rfl
  | cons c rest ih =>
    intro idx acc j h
    have hrest : ∀ (i ci : Nat), rest[i]? = some ci → (idx + 1) + i < dt.length →
        ci ≠ j := by
      intro i ci hci hlt
      exact h (i + 1) ci (by simpa using hci) (by omega)
    rw [applyProjDtypes]
    cases hidx : dt[idx]? with
    | none => exact ih (idx + 1) acc j hrest
    | some t =>
      have hlt : idx < dt.length := by
        by_contra hge
        rw [List.getElem?_eq_none (Nat.le_of_not_lt hge)] at hidx
        cases hidx
      have hcj : c ≠ j := h 0 c (by simp) (by omega)
      rw [ih (idx + 1) _ j hrest]
      exact List.getElem?_set_ne hcj

theorem getElem?_applyProjDtypes (dt : List Dtype) (ps : List Nat) :
    ∀ (idx : Nat) (acc : List Dtype) (i ci : Nat) (t : Dtype), ps.Nodup →
    ps[i]? = some ci → dt[idx + i]? = some t → ci < acc.length →
    (applyProjDtypes dt idx ps acc)[ci]? = some t := by
  induction ps with
  | nil => intro idx acc i ci t _ hp; simp at hp
  | cons c rest ih =>
    intro idx acc i ci t hnd hp hd hlt
    rcases List.nodup_cons.mp hnd with ⟨hcr, hndr⟩
    cases i with
    | zero =>
      have hc : c = ci := by simpa using hp
      subst hc
      have hidx : dt[idx]? = some t := by simpa using hd
      rw [applyProjDtypes, hidx]
      rw [getElem?_applyProjDtypes_of_not_mem dt rest _ _ _ hcr]
      exact List.getElem?_set_eq_of_lt t hlt
    | succ j =>
      have hp' : rest[j]? = some ci := by simpa using hp
      have hd' : dt[(idx + 1) + j]? = some t := by
        have : idx + 1 + j = idx + (j + 1) := by omega
        rw [this]; exact hd
      rw [applyProjDtypes]
      cases h : dt[idx]? with
      | none => exact ih _ _ _ _ _ hndr hp' hd' hlt
      | some u =>
        exact ih _ _ _ _ _ hndr hp' hd' (by rw [List.length_set]; exact hlt)

theorem pyInsert_of_not_mem {α : Type} {d : List (String × α)} {k : String} (v : α)
    (h : ∀ p ∈ d, p.1 ≠ k) : pyInsert d k v = d ++ [(k, v)] := by
  unfold pyInsert
  rw [if_neg]
  simp only [List.any_eq_true, beq_iff_eq, not_exists]
  intro p
  exact fun hp => h p hp.1 hp.2

theorem foldl_pyInsert_append {α : Type} :
    ∀ (l acc : List (String × α)), (l.map Prod.fst).Nodup →
    (∀ p ∈ l, ∀ q ∈ acc, q.1 ≠ p.1) →
    l.foldl (fun d p => pyInsert d p.1 p.2) acc = acc ++ l := by
  intro l
  induction l with
  | nil => intro acc _ _; simp
  | cons p rest ih =>
    intro acc hnd hdisj
    have hnd' : (p.1 :: rest.map Prod.fst).Nodup := by simpa using hnd
    have hp1 : p.1 ∉ rest.map Prod.fst := (List.nodup_cons.mp hnd').1
    have hndrest : (rest.map Prod.fst).Nodup := (List.nodup_cons.mp hnd').2
    have hdisj' : ∀ r ∈ rest, ∀ q ∈ acc ++ [p], q.1 ≠ r.1 := by
      intro r hr q hq
      rcases List.mem_append.mp hq with hq1 | hq2
      · exact hdisj r (List.mem_cons_of_mem p hr) q hq1
      · have hqp : q = p := by simpa using hq2
        subst hqp
        intro hcontra
        exact hp1 (hcontra ▸ List.mem_map_of_mem Prod.fst hr)
    rw [List.foldl_cons,
      pyInsert_of_not_mem p.2 (fun q hq => hdisj p (List.mem_cons_self p rest) q hq),
      ih (acc ++ [p]) hndrest hdisj']
    simp

theorem pyDict_eq_self {α : Type} {l : List (String × α)}
    (hnd : (l.map Prod.fst).Nodup) : pyDict l = l := by
  unfold pyDict
  rw [foldl_pyInsert_append l [] hnd (fun p _ q hq => absurd hq (List.not_mem_nil q))]
  simp

theorem map_fst_zip_eq_take {α β : Type} :
    ∀ (l₁ : List α) (l₂ : List β), l₂.length ≤ l₁.length →
    (l₁.zip l₂).map Prod.fst = l₁.take l₂.length := by
  intro l₁
  induction l₁ with
  | nil =>
    intro l₂ h
    have h2 : l₂ = [] := by simpa using h
    subst h2
    simp
  | cons a l₁ ih =>
    intro l₂ h
    cases l₂ with
    | nil => simp
    | cons b l₂ => simpa using ih l₂ (by simpa using h)

/-! Claim theorems. -/

/-- C1: with a `ByIndex` projection of distinct indices and a positional
dtype override no longer than the projection, the reconciled dtype
specification is a flat list of length `max(projection) + 1` holding
`override[i]` at position `projection[i]` for every `i < len(override)`,
and the placeholder `Utf8` at every position that is not a `projection[i]`
with `i < len(override)` (positions outside the projection as well as
projected positions beyond the override's length). -/
theorem read_csv_byindex_positional_override (has_header : Bool)
    (new_columns : Option (List String)) (ps : List Nat) (dt : List Dtype)
    (hps : ps ≠ []) (hnd : ps.Nodup) (hdt : dt ≠ []) (hlen : dt.length ≤ ps.length) :
    ∃ L : List Dtype,
      read_csv has_header (some ps) none new_columns (some (DtypesArg.list dt)) =
        Except.ok ⟨some (ColumnsArg.byIndex ps), some (DtypesArg.list L)⟩ ∧
      L.length = pyMax ps + 1 ∧
      (∀ (i ci : Nat) (t : Dtype), ps[i]? = some ci → dt[i]? = some t → L[ci]? = some t) ∧
      (∀ j, j < pyMax ps + 1 →
        (∀ (i ci : Nat), ps[i]? = some ci → i < dt.length → j ≠ ci) →
        L[j]? = some Dtype.Utf8) := by
  refine ⟨applyProjDtypes dt 0 ps (List.replicate (pyMax ps + 1) Dtype.Utf8), ?_, ?_, ?_, ?_⟩
  · simp [read_csv, dtypes_after_projection, dtypes_after_columns, dtypes_after_rename,
      hps, hdt, Nat.not_lt.mpr hlen]
  · rw [length_applyProjDtypes, List.length_replicate]
  · intro i ci t hp hd
    have hci : ci < (List.replicate (pyMax ps + 1) Dtype.Utf8).length := by
      rw [List.length_replicate]
      exact Nat.lt_succ_of_le (le_pyMax (List.getElem?_mem hp))
    exact getElem?_applyProjDtypes dt ps 0 _ i ci t hnd hp (by simpa using hd) hci
  · intro j hj hnw
    have hnw2 : ∀ (i ci : Nat), ps[i]? = some ci → 0 + i < dt.length → ci ≠ j := by
      intro i ci hci hlt
      exact Ne.symm (hnw i ci hci (by omega))
    rw [getElem?_applyProjDtypes_of_not_written dt ps 0 _ j hnw2,
      List.getElem?_replicate]
    simp [hj]

/-- Witness for C1 at projection `[2, 0, 1]` and the strictly shorter
override `[Int64]`: position 2 takes `Int64`; positions 0 and 1, projected
but beyond the override's length, stay `Utf8`. -/
theorem read_csv_byindex_positional_override_witness :
    ∃ L : List Dtype,
      read_csv true (some [2, 0, 1]) none none
          (some (DtypesArg.list [Dtype.Int64])) =
        Except.ok ⟨some (ColumnsArg.byIndex [2, 0, 1]), some (DtypesArg.list L)⟩ ∧
      L.length = pyMax [2, 0, 1] + 1 ∧
      (∀ (i ci : Nat) (t : Dtype), ([2, 0, 1] : List Nat)[i]? = some ci →
        ([Dtype.Int64] : List Dtype)[i]? = some t → L[ci]? = some t) ∧
      (∀ j, j < pyMax [2, 0, 1] + 1 →
        (∀ (i ci : Nat), ([2, 0, 1] : List Nat)[i]? = some ci →
          i < ([Dtype.Int64] : List Dtype).length → j ≠ ci) →
        L[j]? = some Dtype.Utf8) :=
  read_csv_byindex_positional_override true none [2, 0, 1] [Dtype.Int64]
    (by decide) (by decide) (by decide) (by decide)

/-- C2 counterexample: a keyed override with two entries against a single
selected column raises nothing; the call reconciles successfully with the
dict passed through unchanged, so the excess-entry check does not apply to
keyed (mapping-shaped) overrides. -/
theorem read_csv_keyed_override_excess_unchecked :
    read_csv true none (some ["a"]) none
        (some (DtypesArg.dict [("a", Dtype.Int64), ("b", Dtype.Int64)])) =
      Except.ok ⟨some (ColumnsArg.byName ["a"]),
        some (DtypesArg.dict [("a", Dtype.Int64), ("b", Dtype.Int64)])⟩ := by
  rfl

/-- C2 amended: a sequence-shaped dtype override with strictly more entries
than there are selected columns (a `ByIndex` projection or a name list)
raises the configuration error before any parsing; keyed overrides are not
length-checked. -/
theorem read_csv_positional_override_excess_error (has_header : Bool)
    (new_columns : Option (List String)) (dt : List Dtype) (hdt : dt ≠ []) :
    (∀ ps : List Nat, ps ≠ [] → ps.length < dt.length →
      read_csv has_header (some ps) none new_columns (some (DtypesArg.list dt)) =
        Except.error "more dtypes overrides are specified than there are selected columns") ∧
    (∀ cs : List String, cs ≠ [] → cs.length < dt.length →
      (has_header = false → (cs.all fun c => startswith c "column_") = true) →
      read_csv has_header none (some cs) new_columns (some (DtypesArg.list dt)) =
        Except.error "more dtypes overrides are specified than there are selected columns") := by
  constructor
  · intro ps hps hlen
    simp [read_csv, dtypes_after_projection, hps, hdt, hlen]
  · intro cs hcs hlen hnames
    simp [read_csv, dtypes_after_projection, dtypes_after_columns, hcs, hdt, hlen]
    intro hh
    simpa [List.all_eq_true] using hnames hh

/-- Witness for the amended C2 at override `[Int64, Boolean]` against the
one-element projection `[0]` and the one-element selection `["a"]`. -/
theorem read_csv_positional_override_excess_error_witness :
    (∀ ps : List Nat, ps ≠ [] → ps.length < ([Dtype.Int64, Dtype.Boolean] : List Dtype).length →
      read_csv true (some ps) none none (some (DtypesArg.list [Dtype.Int64, Dtype.Boolean])) =
        Except.error "more dtypes overrides are specified than there are selected columns") ∧
    (∀ cs : List String, cs ≠ [] → cs.length < ([Dtype.Int64, Dtype.Boolean] : List Dtype).length →
      (true = false → (cs.all fun c => startswith c "column_") = true) →
      read_csv true none (some cs) none (some (DtypesArg.list [Dtype.Int64, Dtype.Boolean])) =
        Except.error "more dtypes overrides are specified than there are selected columns") :=
  read_csv_positional_override_excess_error true none [Dtype.Int64, Dtype.Boolean] (by decide)

/-- C5 counterexample: with `has_header=False`, the selected name
`"column_x"` does not match the synthesized pattern `column_<positive
integer>`, yet no error is raised: the code only checks the literal
`column_` text at the start of each name. -/
theorem read_csv_headerless_nonsynthesized_name_accepted :
    read_csv false none (some ["column_x"]) none none =
      Except.ok ⟨some (ColumnsArg.byName ["column_x"]), none⟩ := by
  rfl

/-- C5 amended: with `has_header=False` and a `ByName` selection, a
configuration error is raised before any parsing exactly when some selected
name does not start with the text `column_` (the code checks only this
prefix of the synthesized pattern, not the trailing positive integer). -/
theorem read_csv_headerless_name_check (projection : Option (List Nat))
    (new_columns : Option (List String)) (dtypes : Option DtypesArg)
    (cs : List String) (c : String) (hc : c ∈ cs)
    (hbad : startswith c "column_" = false) :
    read_csv false projection (some cs) new_columns dtypes =
      Except.error "specified column names do not start with 'column_', but autogenerated header names were requested" := by
  have hcs : cs ≠ [] := List.ne_nil_of_mem hc
  have hall : (cs.all fun c => startswith c "column_") = false := by
    rw [List.all_eq_false]
    exact ⟨c, hc, by simp [hbad]⟩
  simp [read_csv, hcs, hall]

/-- Witness for the amended C5 at selection `["foo"]`. -/
theorem read_csv_headerless_name_check_witness :
    read_csv false none (some ["foo"]) none none =
      Except.error "specified column names do not start with 'column_', but autogenerated header names were requested" :=
  read_csv_headerless_name_check none none none ["foo"] "foo" (by decide) (by decide)

/-- C6: with a `ByName` selection and a positional dtype override of equal
or shorter length, the reconciled dtype specification is a keyed mapping of
exactly `len(override)` entries, pairing the i-th selected name with
`override[i]`. -/
theorem read_csv_byname_positional_override (has_header : Bool)
    (cs : List String) (dt : List Dtype)
    (hcs : cs ≠ []) (hnd : cs.Nodup) (hdt : dt ≠ []) (hlen : dt.length ≤ cs.length)
    (hnames : has_header = false → (cs.all fun c => startswith c "column_") = true) :
    ∃ d : List (String × Dtype),
      read_csv has_header none (some cs) none (some (DtypesArg.list dt)) =
        Except.ok ⟨some (ColumnsArg.byName cs), some (DtypesArg.dict d)⟩ ∧
      d.length = dt.length ∧
      (∀ (i : Nat) (n : String) (t : Dtype), cs[i]? = some n → dt[i]? = some t →
        d[i]? = some (n, t)) := by
  refine ⟨cs.zip dt, ?_, ?_, ?_⟩
  · have hkeys : ((cs.zip dt).map Prod.fst).Nodup := by
      rw [map_fst_zip_eq_take cs dt hlen]
      exact hnd.sublist (List.take_sublist _ _)
    have hpd : pyDict (cs.zip dt) = cs.zip dt := pyDict_eq_self hkeys
    simp only [read_csv, Option.getD_some, Option.getD_none]
    rw [if_neg ?_]
    · simp [dtypes_after_projection, dtypes_after_columns, dtypes_after_rename,
        hcs, hdt, Nat.not_lt.mpr hlen, hpd]
    · rintro ⟨-, hh, hall⟩
      rw [hnames hh] at hall
      cases hall
  · rw [List.length_zip]
    exact Nat.min_eq_right hlen
  · intro i n t hn ht
    rw [List.getElem?_zip_eq_some]
    exact ⟨hn, ht⟩

/-- Witness for C6 at selection `["a", "b", "c"]` and override
`[Int64, Boolean]`. -/
theorem read_csv_byname_positional_override_witness :
    ∃ d : List (String × Dtype),
      read_csv true none (some ["a", "b", "c"]) none
          (some (DtypesArg.list [Dtype.Int64, Dtype.Boolean])) =
        Except.ok ⟨some (ColumnsArg.byName ["a", "b", "c"]), some (DtypesArg.dict d)⟩ ∧
      d.length = ([Dtype.Int64, Dtype.Boolean] : List Dtype).length ∧
      (∀ (i : Nat) (n : String) (t : Dtype),
        (["a", "b", "c"] : List String)[i]? = some n →
        ([Dtype.Int64, Dtype.Boolean] : List Dtype)[i]? = some t →
        d[i]? = some (n, t)) :=
  read_csv_byname_positional_override true ["a", "b", "c"] [Dtype.Int64, Dtype.Boolean]
    (by decide) (by decide) (by decide) (by decide) (by decide)

/-- C8: with a `ByName` selection, a keyed dtype override and a rename list
strictly longer than the selection, reconciliation fails with the
configuration error about more new names than selected columns, before any
parsing. -/
theorem read_csv_rename_longer_than_selection (has_header : Bool)
    (projection : Option (List Nat)) (cs ncs : List String)
    (d : List (String × Dtype)) (hcs : cs ≠ []) (hlen : cs.length < ncs.length)
    (hd : d ≠ [])
    (hnames : has_header = false → (cs.all fun c => startswith c "column_") = true) :
    read_csv has_header projection (some cs) (some ncs) (some (DtypesArg.dict d)) =
      Except.error "more new column names are specified than there are selected columns" := by
  have hncs : ncs ≠ [] := by
    intro h
    subst h
    simp at hlen
  simp only [read_csv, Option.getD_some]
  rw [if_neg ?_]
  · simp [dtypes_after_projection, dtypes_after_columns, dtypes_after_rename,
      hcs, hd, hncs, hlen]
  · rintro ⟨-, hh, hall⟩
    rw [hnames hh] at hall
    cases hall

/-- Witness for C8 at selection `["a"]`, rename list `["x", "y"]` and keyed
override `{"x": Int64}`. -/
theorem read_csv_rename_longer_than_selection_witness :
    read_csv true none (some ["a"]) (some ["x", "y"])
        (some (DtypesArg.dict [("x", Dtype.Int64)])) =
      Except.error "more new column names are specified than there are selected columns" :=
  read_csv_rename_longer_than_selection true none ["a"] ["x", "y"]
    [("x", Dtype.Int64)] (by decide) (by decide) (by decide) (by decide)

/-- C9: for every combination of projection, columns, new_columns, dtypes
and has_header, the reconciliation of `read_csv` and the independently
transcribed reconciliation of `read_csv_batched` resolve the same projection,
produce the same reconciled dtype specification, and fail in exactly the
same cases with the same messages. -/
theorem read_csv_batched_matches_read_csv (has_header : Bool)
    (projection : Option (List Nat)) (columns : Option (List String))
    (new_columns : Option (List String)) (dtypes : Option DtypesArg) :
    read_csv_batched has_header projection columns new_columns dtypes =
      read_csv has_header projection columns new_columns dtypes := rfl

theorem getElem?_range' : ∀ (n s i : Nat), i < n →
    (List.range' s n)[i]? = some (s + i) := by
  intro n
  induction n with
  | zero => intro s i h; omega
  | succ m ih =>
    intro s i h
    rw [List.range'_succ]
    cases i with
    | zero => simp
    | succ i' =>
      rw [List.getElem?_cons_succ, ih (s + 1) i' (by omega)]
      congr 1
      omega

theorem find?_zip_eq_some :
    ∀ (ncs cc : List String) (j : Nat) (k c : String), ncs.Nodup →
    ncs[j]? = some k → cc[j]? = some c →
    (ncs.zip cc).find? (fun p => p.1 == k) = some (k, c) := by
  intro ncs
  induction ncs with
  | nil => intro cc j k c _ h; simp at h
  | cons n rest ih =>
    intro cc j k c hnd hk hc
    cases cc with
    | nil => simp at hc
    | cons c0 cc2 =>
      cases j with
      | zero =>
        have hn : n = k := by simpa using hk
        have hc0 : c0 = c := by simpa using hc
        subst hn
        subst hc0
        simp [List.zip_cons_cons, List.find?]
      | succ j2 =>
        have hk2 : rest[j2]? = some k := by simpa using hk
        have hc2 : cc2[j2]? = some c := by simpa using hc
        have hnk : (n == k) = false := by
          simp only [beq_eq_false_iff_ne]
          intro h
          subst h
          exact (List.nodup_cons.mp hnd).1 (List.getElem?_mem hk2)
        rw [List.zip_cons_cons, List.find?_cons]
        simp only [hnk]
        exact ih cc2 j2 k c (List.nodup_cons.mp hnd).2 hk2 hc2

theorem find?_zip_eq_none :
    ∀ (ncs cc : List String) (k : String),
    (∀ j : Nat, ncs[j]? = some k → cc.length ≤ j) →
    (ncs.zip cc).find? (fun p => p.1 == k) = none := by
  intro ncs
  induction ncs with
  | nil => intro cc k _; simp
  | cons n rest ih =>
    intro cc k h
    cases cc with
    | nil => simp
    | cons c0 cc2 =>
      have hn : (n == k) = false := by
        simp only [beq_eq_false_iff_ne]
        intro he
        subst he
        have := h 0 (by simp)
        simp at this
      rw [List.zip_cons_cons, List.find?_cons]
      simp only [hn]
      apply ih cc2 k
      intro j hj
      have := h (j + 1) (by simpa using hj)
      simpa [Nat.succ_le_succ_iff] using this

theorem pyDict_zip_eq {ncs cc : List String} (hnd : ncs.Nodup)
    (hlen : cc.length ≤ ncs.length) : pyDict (ncs.zip cc) = ncs.zip cc :=
  pyDict_eq_self (by
    rw [map_fst_zip_eq_take ncs cc hlen]
    exact hnd.sublist (List.take_sublist _ _))

theorem pyGet_zip_dict_eq_of_get {ncs cc : List String} {j : Nat} {k c : String}
    (hnd : ncs.Nodup) (hlen : cc.length ≤ ncs.length)
    (hk : ncs[j]? = some k) (hc : cc[j]? = some c) :
    pyGet (pyDict (ncs.zip cc)) k k = c := by
  rw [pyGet, pyLookup, pyDict_zip_eq hnd hlen,
    find?_zip_eq_some ncs cc j k c hnd hk hc]
  rfl

theorem pyGet_zip_dict_eq_self {ncs cc : List String} {k : String}
    (hnd : ncs.Nodup) (hlen : cc.length ≤ ncs.length)
    (h : ∀ j : Nat, ncs[j]? = some k → cc.length ≤ j) :
    pyGet (pyDict (ncs.zip cc)) k k = k := by
  rw [pyGet, pyLookup, pyDict_zip_eq hnd hlen, find?_zip_eq_none ncs cc k h]
  rfl

/-- C3: with a `ByName` selection, a keyed dtype override and a rename list
no longer than the selection, every override key that occurs in
`new_columns` is rewritten to the selected original name at the same
position, and keys not occurring in `new_columns` are kept unchanged. -/
theorem read_csv_byname_rename_keyed_override (has_header : Bool)
    (cs ncs : List String) (d : List (String × Dtype))
    (hcs : cs ≠ []) (hncs : ncs ≠ []) (hnd : ncs.Nodup)
    (hlen : ncs.length ≤ cs.length) (hd : d ≠ [])
    (hnames : has_header = false → (cs.all fun c => startswith c "column_") = true)
    (hkeys : (d.map (fun p =>
      pyGet (pyDict (ncs.zip (cs.take ncs.length))) p.1 p.1)).Nodup) :
    ∃ d' : List (String × Dtype),
      read_csv has_header none (some cs) (some ncs) (some (DtypesArg.dict d)) =
        Except.ok ⟨some (ColumnsArg.byName cs), some (DtypesArg.dict d')⟩ ∧
      d'.length = d.length ∧
      (∀ (i j : Nat) (k ck : String) (v : Dtype), d[i]? = some (k, v) →
        ncs[j]? = some k → cs[j]? = some ck → d'[i]? = some (ck, v)) ∧
      (∀ (i : Nat) (k : String) (v : Dtype), d[i]? = some (k, v) → k ∉ ncs →
        d'[i]? = some (k, v)) := by
  have hcct : (cs.take ncs.length).length = ncs.length := by
    rw [List.length_take]
    exact Nat.min_eq_left hlen
  have hcclen : (cs.take ncs.length).length ≤ ncs.length := Nat.le_of_eq hcct
  refine ⟨d.map (fun p =>
    (pyGet (pyDict (ncs.zip (cs.take ncs.length))) p.1 p.1, p.2)), ?_, ?_, ?_, ?_⟩
  · have hccne : cs.take ncs.length ≠ [] := by
      intro h
      rw [h] at hcct
      exact hncs (List.length_eq_zero.mp hcct.symm)
    have hpd : pyDict (d.map (fun p =>
        (pyGet (pyDict (ncs.zip (cs.take ncs.length))) p.1 p.1, p.2))) =
        d.map (fun p =>
        (pyGet (pyDict (ncs.zip (cs.take ncs.length))) p.1 p.1, p.2)) :=
      pyDict_eq_self (by simpa [List.map_map, Function.comp] using hkeys)
    simp only [read_csv, Option.getD_some]
    rw [if_neg ?_]
    · simp [dtypes_after_projection, dtypes_after_columns, dtypes_after_rename,
        hcs, hd, hncs, Nat.not_lt.mpr hlen, hccne, hpd]
    · rintro ⟨-, hh, hall⟩
      rw [hnames hh] at hall
      cases hall
  · rw [List.length_map]
  · intro i j k ck v hi hj hck
    have hjlt : j < ncs.length := by
      by_contra hge
      rw [List.getElem?_eq_none (Nat.le_of_not_lt hge)] at hj
      cases hj
    have hcc : (cs.take ncs.length)[j]? = some ck := by
      rw [List.getElem?_take_of_lt hjlt]
      exact hck
    rw [List.getElem?_map, hi]
    rw [Option.map_some']
    rw [pyGet_zip_dict_eq_of_get hnd hcclen hj hcc]
  · intro i k v hi hk
    rw [List.getElem?_map, hi]
    rw [Option.map_some']
    rw [pyGet_zip_dict_eq_self hnd hcclen]
    intro j hj
    exact absurd (List.getElem?_mem hj) hk

/-- Witness for C3 at selection `["a", "b"]`, rename list `["x", "y"]` and
keyed override `{"x": Int64, "y": Utf8}`. -/
theorem read_csv_byname_rename_keyed_override_witness :
    ∃ d' : List (String × Dtype),
      read_csv true none (some ["a", "b"]) (some ["x", "y"])
          (some (DtypesArg.dict [("x", Dtype.Int64), ("y", Dtype.Utf8)])) =
        Except.ok ⟨some (ColumnsArg.byName ["a", "b"]), some (DtypesArg.dict d')⟩ ∧
      d'.length = ([("x", Dtype.Int64), ("y", Dtype.Utf8)] : List (String × Dtype)).length ∧
      (∀ (i j : Nat) (k ck : String) (v : Dtype),
        ([("x", Dtype.Int64), ("y", Dtype.Utf8)] : List (String × Dtype))[i]? = some (k, v) →
        (["x", "y"] : List String)[j]? = some k →
        (["a", "b"] : List String)[j]? = some ck → d'[i]? = some (ck, v)) ∧
      (∀ (i : Nat) (k : String) (v : Dtype),
        ([("x", Dtype.Int64), ("y", Dtype.Utf8)] : List (String × Dtype))[i]? = some (k, v) →
        k ∉ (["x", "y"] : List String) → d'[i]? = some (k, v)) :=
  read_csv_byname_rename_keyed_override true ["a", "b"] ["x", "y"]
    [("x", Dtype.Int64), ("y", Dtype.Utf8)] (by decide) (by decide) (by decide)
    (by decide) (by decide) (by decide) (by decide)

/-- C7: with `has_header=False`, no selection and no projection, the rename
rewrite of a keyed override pairs `new_columns` with the synthesized names
`column_1 .. column_len(new_columns)` in order: an override key at position
`j` of `new_columns` is rewritten to `column_<j+1>`, and keys not occurring
in `new_columns` are kept unchanged. -/
theorem read_csv_headerless_rename_synthesized (ncs : List String)
    (d : List (String × Dtype)) (hncs : ncs ≠ []) (hnd : ncs.Nodup) (hd : d ≠ [])
    (hkeys : (d.map (fun p => pyGet (pyDict (ncs.zip
      ((List.range' 1 ncs.length).map (fun i => "column_" ++ toString i)))) p.1 p.1)).Nodup) :
    ∃ d' : List (String × Dtype),
      read_csv false none none (some ncs) (some (DtypesArg.dict d)) =
        Except.ok ⟨none, some (DtypesArg.dict d')⟩ ∧
      d'.length = d.length ∧
      (∀ (i j : Nat) (k : String) (v : Dtype), d[i]? = some (k, v) →
        ncs[j]? = some k → d'[i]? = some ("column_" ++ toString (j + 1), v)) ∧
      (∀ (i : Nat) (k : String) (v : Dtype), d[i]? = some (k, v) → k ∉ ncs →
        d'[i]? = some (k, v)) := by
  have hcct : ((List.range' 1 ncs.length).map
      (fun i => "column_" ++ toString i)).length = ncs.length := by
    rw [List.length_map, List.length_range']
  have hcclen : ((List.range' 1 ncs.length).map
      (fun i => "column_" ++ toString i)).length ≤ ncs.length := Nat.le_of_eq hcct
  refine ⟨d.map (fun p => (pyGet (pyDict (ncs.zip
    ((List.range' 1 ncs.length).map (fun i => "column_" ++ toString i)))) p.1 p.1, p.2)),
    ?_, ?_, ?_, ?_⟩
  · have hccne : (List.range' 1 ncs.length).map
        (fun i => "column_" ++ toString i) ≠ [] := by
      intro h
      rw [h] at hcct
      exact hncs (List.length_eq_zero.mp hcct.symm)
    have hpd := pyDict_eq_self (l := d.map (fun p => (pyGet (pyDict (ncs.zip
      ((List.range' 1 ncs.length).map (fun i => "column_" ++ toString i)))) p.1 p.1, p.2)))
      (by simpa [List.map_map, Function.comp] using hkeys)
    simp [read_csv, dtypes_after_projection, dtypes_after_columns, dtypes_after_rename,
      hncs, hd, hccne, hpd]
  · rw [List.length_map]
  · intro i j k v hi hj
    have hjlt : j < ncs.length := by
      by_contra hge
      rw [List.getElem?_eq_none (Nat.le_of_not_lt hge)] at hj
      cases hj
    have hcc : ((List.range' 1 ncs.length).map
        (fun i => "column_" ++ toString i))[j]? = some ("column_" ++ toString (j + 1)) := by
      rw [List.getElem?_map, getElem?_range' ncs.length 1 j hjlt, Option.map_some']
      rw [Nat.add_comm 1 j]
    rw [List.getElem?_map, hi, Option.map_some']
    rw [pyGet_zip_dict_eq_of_get hnd hcclen hj hcc]
  · intro i k v hi hk
    rw [List.getElem?_map, hi, Option.map_some']
    rw [pyGet_zip_dict_eq_self hnd hcclen]
    intro j hj
    exact absurd (List.getElem?_mem hj) hk

/-- Witness for C7 at rename list `["x", "y", "z"]` and keyed override
`{"x": Int64}`, emitting `{"column_1": Int64}`. -/
theorem read_csv_headerless_rename_synthesized_witness :
    ∃ d' : List (String × Dtype),
      read_csv false none none (some ["x", "y", "z"])
          (some (DtypesArg.dict [("x", Dtype.Int64)])) =
        Except.ok ⟨none, some (DtypesArg.dict d')⟩ ∧
      d'.length = ([("x", Dtype.Int64)] : List (String × Dtype)).length ∧
      (∀ (i j : Nat) (k : String) (v : Dtype),
        ([("x", Dtype.Int64)] : List (String × Dtype))[i]? = some (k, v) →
        (["x", "y", "z"] : List String)[j]? = some k →
        d'[i]? = some ("column_" ++ toString (j + 1), v)) ∧
      (∀ (i : Nat) (k : String) (v : Dtype),
        ([("x", Dtype.Int64)] : List (String × Dtype))[i]? = some (k, v) →
        k ∉ (["x", "y", "z"] : List String) → d'[i]? = some (k, v)) :=
  read_csv_headerless_rename_synthesized ["x", "y", "z"] [("x", Dtype.Int64)]
    (by decide) (by decide) (by decide) (by decide)

/-- C10: with `has_header=False`, a `ByIndex` projection, a keyed override
and a rename list strictly longer than the projection, no error is raised:
the rewrite pairs only the first `len(projection)` rename entries with the
synthesized names `column_<idx+1>`, and override keys that occur in
`new_columns` only at positions beyond the projection are left unchanged. -/
theorem read_csv_headerless_projection_rename_truncation (ps : List Nat)
    (ncs : List String) (d : List (String × Dtype))
    (hps : ps ≠ []) (hlen : ps.length < ncs.length) (hnd : ncs.Nodup)
    (hd : d ≠ [])
    (hkeys : (d.map (fun p => pyGet (pyDict (ncs.zip
      (ps.map (fun i => "column_" ++ toString (i + 1))))) p.1 p.1)).Nodup) :
    ∃ d' : List (String × Dtype),
      read_csv false (some ps) none (some ncs) (some (DtypesArg.dict d)) =
        Except.ok ⟨some (ColumnsArg.byIndex ps), some (DtypesArg.dict d')⟩ ∧
      d'.length = d.length ∧
      (∀ (i j : Nat) (k : String) (v : Dtype) (ci : Nat), d[i]? = some (k, v) →
        ncs[j]? = some k → ps[j]? = some ci →
        d'[i]? = some ("column_" ++ toString (ci + 1), v)) ∧
      (∀ (i : Nat) (k : String) (v : Dtype), d[i]? = some (k, v) →
        (∀ j : Nat, ncs[j]? = some k → ps.length ≤ j) →
        d'[i]? = some (k, v)) := by
  have hncs : ncs ≠ [] := by
    intro h
    subst h
    simp at hlen
  have hcct : (ps.map (fun i => "column_" ++ toString (i + 1))).length = ps.length :=
    List.length_map ps _
  have hcclen : (ps.map (fun i => "column_" ++ toString (i + 1))).length ≤ ncs.length := by
    rw [hcct]
    exact Nat.le_of_lt hlen
  refine ⟨d.map (fun p => (pyGet (pyDict (ncs.zip
    (ps.map (fun i => "column_" ++ toString (i + 1))))) p.1 p.1, p.2)), ?_, ?_, ?_, ?_⟩
  · have hccne : ps.map (fun i => "column_" ++ toString (i + 1)) ≠ [] := by
      intro h
      exact hps (List.map_eq_nil_iff.mp h)
    have hpd := pyDict_eq_self (l := d.map (fun p => (pyGet (pyDict (ncs.zip
      (ps.map (fun i => "column_" ++ toString (i + 1))))) p.1 p.1, p.2)))
      (by simpa [List.map_map, Function.comp] using hkeys)
    simp [read_csv, dtypes_after_projection, dtypes_after_columns, dtypes_after_rename,
      hps, hncs, hd, hccne, hpd]
  · rw [List.length_map]
  · intro i j k v ci hi hj hci
    have hcc : (ps.map (fun i => "column_" ++ toString (i + 1)))[j]? =
        some ("column_" ++ toString (ci + 1)) := by
      rw [List.getElem?_map, hci, Option.map_some']
    rw [List.getElem?_map, hi, Option.map_some']
    rw [pyGet_zip_dict_eq_of_get hnd hcclen hj hcc]
  · intro i k v hi hk
    rw [List.getElem?_map, hi, Option.map_some']
    rw [pyGet_zip_dict_eq_self hnd hcclen]
    intro j hj
    rw [hcct]
    exact hk j hj

/-- Witness for C10 at projection `[1]`, rename list `["x", "y"]` and keyed
override `{"x": Int64, "y": Boolean}`: no error, `"x"` is rewritten to
`column_2` and the extra rename entry `"y"` is ignored. -/
theorem read_csv_headerless_projection_rename_truncation_witness :
    ∃ d' : List (String × Dtype),
      read_csv false (some [1]) none (some ["x", "y"])
          (some (DtypesArg.dict [("x", Dtype.Int64), ("y", Dtype.Boolean)])) =
        Except.ok ⟨some (ColumnsArg.byIndex [1]), some (DtypesArg.dict d')⟩ ∧
      d'.length = ([("x", Dtype.Int64), ("y", Dtype.Boolean)] : List (String × Dtype)).length ∧
      (∀ (i j : Nat) (k : String) (v : Dtype) (ci : Nat),
        ([("x", Dtype.Int64), ("y", Dtype.Boolean)] : List (String × Dtype))[i]? = some (k, v) →
        (["x", "y"] : List String)[j]? = some k → ([1] : List Nat)[j]? = some ci →
        d'[i]? = some ("column_" ++ toString (ci + 1), v)) ∧
      (∀ (i : Nat) (k : String) (v : Dtype),
        ([("x", Dtype.Int64), ("y", Dtype.Boolean)] : List (String × Dtype))[i]? = some (k, v) →
        (∀ j : Nat, (["x", "y"] : List String)[j]? = some k → ([1] : List Nat).length ≤ j) →
        d'[i]? = some (k, v)) :=
  read_csv_headerless_projection_rename_truncation [1] ["x", "y"]
    [("x", Dtype.Int64), ("y", Dtype.Boolean)] (by decide) (by decide) (by decide)
    (by decide) (by decide)

theorem pyLookup_isSome_iff {α : Type} (d : List (String × α)) (k : String) :
    (pyLookup d k).isSome = true ↔ k ∈ d.map Prod.fst := by
  constructor
  · intro h
    rcases Option.isSome_iff_exists.mp h with ⟨v, hv⟩
    rw [pyLookup] at hv
    rcases Option.map_eq_some'.mp hv with ⟨p, hp, -⟩
    have hpk := List.find?_some hp
    rw [beq_iff_eq] at hpk
    exact hpk ▸ List.mem_map_of_mem Prod.fst (List.mem_of_find?_eq_some hp)
  · intro hk
    rcases List.mem_map.mp hk with ⟨p, hp, hpk⟩
    rw [pyLookup]
    have hfind : (d.find? (fun p => p.1 == k)).isSome = true := by
      rw [List.find?_isSome]
      exact ⟨p, hp, by rw [beq_iff_eq]; exact hpk⟩
    rcases Option.isSome_iff_exists.mp hfind with ⟨q, hq⟩
    rw [hq]
    rfl

theorem filterMap_eq_map_of_forall_some {α β : Type} (f : α → Option β) (g : α → β) :
    ∀ l : List α, (∀ x ∈ l, f x = some (g x)) → l.filterMap f = l.map g := by
  intro l
  induction l with
  | nil => intro _; rfl
  | cons a l ih =>
    intro h
    rw [List.filterMap_cons, h a (List.mem_cons_self a l), List.map_cons,
      ih (fun x hx => h x (List.mem_cons_of_mem a hx))]

theorem forall_isSome_of_length_filterMap {α β : Type} (f : α → Option β) :
    ∀ l : List α, (l.filterMap f).length = l.length →
    ∀ x ∈ l, (f x).isSome = true := by
  intro l
  induction l with
  | nil => intro _ x hx; cases hx
  | cons a l ih =>
    intro h x hx
    rw [List.filterMap_cons] at h
    cases hfa : f a with
    | none =>
      exfalso
      rw [hfa] at h
      have hred : (List.filterMap f l).length = (a :: l).length := h
      have hle := List.length_filterMap_le f l
      rw [List.length_cons] at hred
      omega
    | some b =>
      rw [hfa] at h
      have hred : (b :: List.filterMap f l).length = (a :: l).length := h
      rw [List.length_cons, List.length_cons] at hred
      rcases List.mem_cons.mp hx with hxa | hxl
      · subst hxa
        rw [hfa]
        rfl
      · exact ih (by omega) x hxl

theorem mem_of_subset_of_length_le {l₁ l₂ : List String} (h1 : l₁.Nodup)
    (hs : l₁ ⊆ l₂) (hl : l₂.length ≤ l₁.length) : ∀ a ∈ l₂, a ∈ l₁ := by
  intro a ha
  exact ((h1.subperm hs).perm_of_length_le hl).mem_iff.mpr ha

/-- C4: header present, no selection, rename list `new_columns` and a keyed
override of at most `len(new_columns)` entries.  If every override key
occurs among the first `len(dtypes)` entries of `new_columns`, the override
is converted to a positional list ordered as that rename-list prefix and no
keyed map is emitted; otherwise the keyed map is passed through unchanged. -/
theorem read_csv_header_rename_positional_heuristic (ncs : List String)
    (d : List (String × Dtype)) (hncs : ncs ≠ []) (hd : d ≠ [])
    (hdlen : d.length ≤ ncs.length) (hndp : (ncs.take d.length).Nodup)
    (hkd : (d.map Prod.fst).Nodup) :
    ((∀ k ∈ d.map Prod.fst, k ∈ ncs.take d.length) →
      ∃ L : List Dtype,
        read_csv true none none (some ncs) (some (DtypesArg.dict d)) =
          Except.ok ⟨none, some (DtypesArg.list L)⟩ ∧
        L.length = d.length ∧
        (∀ (j : Nat) (n : String) (t : Dtype), j < d.length → ncs[j]? = some n →
          pyLookup d n = some t → L[j]? = some t)) ∧
    ((¬ ∀ k ∈ d.map Prod.fst, k ∈ ncs.take d.length) →
      read_csv true none none (some ncs) (some (DtypesArg.dict d)) =
        Except.ok ⟨none, some (DtypesArg.dict d)⟩) := by
  have hplen : (ncs.take d.length).length = d.length := by
    rw [List.length_take]
    exact Nat.min_eq_left hdlen
  have hklen : (d.map Prod.fst).length = d.length := List.length_map d Prod.fst
  constructor
  · intro hall
    have hsub : ∀ n ∈ ncs.take d.length, n ∈ d.map Prod.fst :=
      mem_of_subset_of_length_le hkd hall (by omega)
    have hsome : ∀ n ∈ ncs.take d.length,
        pyLookup d n = some ((pyLookup d n).getD Dtype.Utf8) := by
      intro n hn
      have := (pyLookup_isSome_iff d n).mpr (hsub n hn)
      rcases Option.isSome_iff_exists.mp this with ⟨t, ht⟩
      rw [ht]
      rfl
    have hfm : (ncs.take d.length).filterMap (fun n => pyLookup d n) =
        (ncs.take d.length).map (fun n => (pyLookup d n).getD Dtype.Utf8) :=
      filterMap_eq_map_of_forall_some _ _ _ hsome
    have hcond : ((ncs.take d.length).filterMap (fun n => pyLookup d n)).length =
        d.length := by
      rw [hfm, List.length_map, hplen]
    refine ⟨(ncs.take d.length).filterMap (fun n => pyLookup d n), ?_, ?_, ?_⟩
    · simp [read_csv, dtypes_after_projection, dtypes_after_columns,
        dtypes_after_rename, hncs, hd, hdlen, hcond]
    · exact hcond
    · intro j n t hj hn ht
      rw [hfm, List.getElem?_map, List.getElem?_take_of_lt hj, hn, Option.map_some',
        ht]
      rfl
  · intro hnall
    have hcond : ((ncs.take d.length).filterMap (fun n => pyLookup d n)).length ≠
        d.length := by
      intro heq
      apply hnall
      have hsome := forall_isSome_of_length_filterMap (fun n => pyLookup d n)
        (ncs.take d.length) (by rw [heq, hplen])
      have hsub : ∀ n ∈ ncs.take d.length, n ∈ d.map Prod.fst := by
        intro n hn
        exact (pyLookup_isSome_iff d n).mp (hsome n hn)
      exact mem_of_subset_of_length_le hndp hsub (by omega)
    simp [read_csv, dtypes_after_projection, dtypes_after_columns,
      dtypes_after_rename, hncs, hd, hdlen, hcond]

/-- Witness for C4 at rename list `["x", "y"]` and keyed override
`{"x": Int64, "y": Utf8}`: the emitted dtype spec is the positional list
`[Int64, Utf8]`. -/
theorem read_csv_header_rename_positional_heuristic_witness :
    ((∀ k ∈ ([("x", Dtype.Int64), ("y", Dtype.Utf8)] :
        List (String × Dtype)).map Prod.fst,
      k ∈ (["x", "y"] : List String).take
        ([("x", Dtype.Int64), ("y", Dtype.Utf8)] : List (String × Dtype)).length) →
      ∃ L : List Dtype,
        read_csv true none none (some ["x", "y"])
            (some (DtypesArg.dict [("x", Dtype.Int64), ("y", Dtype.Utf8)])) =
          Except.ok ⟨none, some (DtypesArg.list L)⟩ ∧
        L.length = ([("x", Dtype.Int64), ("y", Dtype.Utf8)] : List (String × Dtype)).length ∧
        (∀ (j : Nat) (n : String) (t : Dtype),
          j < ([("x", Dtype.Int64), ("y", Dtype.Utf8)] : List (String × Dtype)).length →
          (["x", "y"] : List String)[j]? = some n →
          pyLookup [("x", Dtype.Int64), ("y", Dtype.Utf8)] n = some t →
          L[j]? = some t)) ∧
    ((¬ ∀ k ∈ ([("x", Dtype.Int64), ("y", Dtype.Utf8)] :
        List (String × Dtype)).map Prod.fst,
      k ∈ (["x", "y"] : List String).take
        ([("x", Dtype.Int64), ("y", Dtype.Utf8)] : List (String × Dtype)).length) →
      read_csv true none none (some ["x", "y"])
          (some (DtypesArg.dict [("x", Dtype.Int64), ("y", Dtype.Utf8)])) =
        Except.ok ⟨none, some (DtypesArg.dict [("x", Dtype.Int64), ("y", Dtype.Utf8)])⟩) :=
  read_csv_header_rename_positional_heuristic ["x", "y"]
    [("x", Dtype.Int64), ("y", Dtype.Utf8)] (by decide) (by decide) (by decide)
    (by decide) (by decide)

end PolarsCsv
